import Mathlib

/-!
Verification development for the Lumio Telegram assistant (`bot.py`).

The file shallowly embeds the message-dispatch layer, the conversational
handler `ai_chat`, the `/spend` accounting command, the calendar event
extraction of `add_event`, and the calendar lookup helpers
`find_event_by_query` / `delete_event` / `update_event`.  Network-backed
collaborators (the OpenAI chat completion call, the Google Sheets and
Calendar services, the weather HTTP endpoint) are modelled as explicit
function parameters or booleans: the embedding is about the program's own
control flow and data transformations, not about the collaborators.
-/

namespace Lumio

/-! ## String utilities (models of the Python primitives used by bot.py) -/

/-- Models Python `str.lower()`.  `Char.toLower` lowers ASCII letters and
leaves CJK characters unchanged, which matches `str.lower` on every string
occurring in this program. -/
def lowerS (s : String) : String := String.mk (s.data.map Char.toLower)

/-- Boolean infix test on character lists: `isInfB n h` is true iff `n`
occurs contiguously inside `h`.  Models Python's `in` operator on strings
(note `"" in s` is `True` in Python, and `isInfB [] h = true`). -/
def isInfB : List Char → List Char → Bool
  | n, [] => n.isEmpty
  | n, c :: t => n.isPrefixOf (c :: t) || isInfB n t

/-- Models Python `needle in hay` on strings. -/
def substrB (needle hay : String) : Bool := isInfB needle.data hay.data

/-- Fuel-driven whitespace tokenizer (the fuel — the input length — always
suffices: every step consumes at least one character). -/
def splitWsF : Nat → List Char → List (List Char)
  | 0, _ => []
  | _ + 1, [] => []
  | fuel + 1, c :: t =>
    if c.isWhitespace then splitWsF fuel t
    else
      (c :: t.takeWhile (fun x => !x.isWhitespace)) ::
        splitWsF fuel (t.dropWhile (fun x => !x.isWhitespace))

/-- Models Python `text.split()`: split on whitespace runs, dropping empty
pieces. -/
def splitTokens (text : String) : List String :=
  (splitWsF text.data.length text.data).map String.mk

/-- Models Python `str.strip()` (also used for Lean-side trimming, since
it is structurally recursive and so reduces in the kernel). -/
def trimL (cs : List Char) : List Char :=
  ((cs.dropWhile Char.isWhitespace).reverse.dropWhile Char.isWhitespace).reverse

/-- String form of `trimL`. -/
def trimS (s : String) : String := String.mk (trimL s.data)

/-- Character-list form of `startswith('/')`. -/
def startsSlashL : List Char → Bool
  | c :: _ => c == '/'
  | [] => false

/-- Models Python `text.startswith('/')`. -/
def startsSlash (t : String) : Bool := startsSlashL t.data

/-- Models Python `s.startswith(p)` for a general needle `p`. -/
def startsWithStr (s p : String) : Bool := p.data.isPrefixOf s.data

/-! ## Handler registration and dispatch (bot.py `__main__`, lines 548-590)

python-telegram-bot keeps the handlers of one group in registration order
and runs exactly the first handler whose check accepts the update.  The
nineteen `CommandHandler`s are registered first, the catch-all
`MessageHandler(filters.TEXT & (~filters.COMMAND), msg_handler)` last. -/

/-- A registered handler: either a slash-command handler or the trailing
free-text handler `msg_handler` (which calls `ai_chat`). -/
inductive Handler where
  | cmdH (name : String)
  | chatH
deriving DecidableEq

/-- The command names registered in `__main__`, in registration order. -/
def registeredCommands : List String :=
  ["start", "help", "add", "delete", "update", "today", "week",
   "spend", "report", "remind", "reminders", "todo", "todos", "done",
   "note", "weather", "stock", "s", "debug"]

/-- The full handler list in registration order: all command handlers,
then the free-text chat handler (source comment: "Chat Handler (Must be
last)"). -/
def registeredHandlers : List Handler :=
  registeredCommands.map Handler.cmdH ++ [Handler.chatH]

/-- The command token a `CommandHandler` extracts: requires the text to
start with `/` and have length > 1; the token is the first
whitespace-delimited word, with the slash removed, cut at `@`, and
lower-cased.  Models python-telegram-bot's `CommandHandler.check_update`
(the bot-username check after `@` is assumed to pass, i.e. messages are
addressed to this bot). -/
def commandToken (text : String) : Option String :=
  if startsSlash text && text.data.length > 1 then
    match splitTokens text with
    | [] => none
    | fst :: _ =>
      some (lowerS (String.mk ((fst.data.drop 1).takeWhile (fun c => c ≠ '@'))))
  else none

/-- Whether Telegram marks the message as a bot command (a `bot_command`
entity at offset 0), which is what `filters.COMMAND` tests: the text
starts with `/` followed by at least one ASCII letter, digit or
underscore. -/
def telegramMarksCommandL : List Char → Bool
  | a :: c :: _ => a == '/' && (c.isAlphanum || c == '_')
  | _ => false

def telegramMarksCommand (text : String) : Bool := telegramMarksCommandL text.data

/-- Whether a handler's check accepts the message text.  A
`CommandHandler` accepts iff the extracted token equals its command name;
the chat handler's filter is `filters.TEXT & (~filters.COMMAND)`. -/
def handlerAccepts : Handler → String → Bool
  | Handler.cmdH name, text => commandToken text == some name
  | Handler.chatH, text => !(text == "") && !(telegramMarksCommand text)

/-- Dispatch: the first registered handler whose check accepts the text,
or `none` when no handler accepts (the update is silently ignored). -/
def dispatch (text : String) : Option Handler :=
  registeredHandlers.find? (fun h => handlerAccepts h text)

/-! ## `get_weather` and `ai_chat` (bot.py lines 342-350 and 393-417)

The HTTP weather call and the OpenAI chat-completion call are modelled as
function parameters.  `WeatherApi loc` returns the status code and body of
`GET wttr.in/...`, or `Except.error` when `requests.get` raises.
`ChatApi sys user` returns the completion content, or `Except.error` when
the provider call raises. -/

/-- A weather HTTP collaborator: location ↦ (status code, body) or a raised
exception. -/
def WeatherApi : Type := String → Except Unit (Nat × String)

/-- A chat-completion collaborator: (system prompt, user text) ↦ reply
content or a raised exception. -/
def ChatApi : Type := String → String → Except Unit String

/-- The fixed string `get_weather` returns on any failure. -/
def weatherFailMsg : String := "無法取得天氣資訊"

/-- Models `get_weather` (bot.py lines 343-350): on HTTP 200 return the
stripped body, otherwise (non-200 or raised exception) the fixed failure
string. -/
def get_weather (api : WeatherApi) (location : String) : String :=
  match api location with
  | Except.ok (code, body) => if code = 200 then trimS body else weatherFailMsg
  | Except.error _ => weatherFailMsg

/-- The fixed fallback reply `ai_chat` returns when the chat-completion
call raises (bot.py line 417). -/
def chatFallbackMsg : String := "嗚嗚... 親愛的我的腦袋有點卡住了 🥺"

/-- The system prompt `ai_chat` builds (bot.py lines 400-405), with the
optional weather context spliced in. -/
def lumioSystemPrompt (weatherCtx : String) : String :=
  "You are Lumio (盧米奧), the user\x27s loving girlfriend. " ++
  "Personality: Sweet, caring, encouraging, uses emojis (❤️, 😘). " ++
  "Language: Traditional Chinese (Taiwan). " ++
  "Context: Helps with life/finance/schedule." ++ weatherCtx

/-- The weather context `ai_chat` splices into its system prompt when the
text mentions the weather (bot.py lines 395-398). -/
def aiWeatherCtx (wApi : WeatherApi) (text : String) : String :=
  if substrB "天氣" text || substrB "weather" (lowerS text) then
    " [Current Taipei Weather: " ++ get_weather wApi "Taipei" ++ "]"
  else ""

/-- Models `ai_chat` (bot.py lines 393-417): optionally fetch weather
context, call the chat completion, return its content verbatim on
success, and the fixed fallback string when the provider raises.
The whole body sits in one `try`, so no exception escapes. -/
def ai_chat (chatApi : ChatApi) (wApi : WeatherApi) (text : String) : String :=
  match chatApi (lumioSystemPrompt (aiWeatherCtx wApi text)) text with
  | Except.ok reply => reply
  | Except.error _ => chatFallbackMsg

/-! ## `/spend` and the expense ledger (bot.py lines 99-127 and 448-456) -/

/-- A decimal amount in normalized fixed-point form: the value is
`mant / 10 ^ scale`, with no trailing zero decimal digits (`scale` is
minimal).  Python parses the spend token with `float(...)`; on the
decimal literals this command receives, the exact decimal value and its
`str()` rendering coincide with the float ones, and the model
deliberately avoids binary floating point. -/
structure Amount where
  mant : Int
  scale : Nat
deriving DecidableEq

/-- One appended ledger row: `[date, category, amount, note]` (bot.py
line 123). -/
structure LedgerRow where
  date : String
  category : String
  amount : Amount
  note : String
deriving DecidableEq

/-- Numeric value of a digit string. -/
def digitsVal (ds : List Char) : Nat :=
  ds.foldl (fun a c => a * 10 + (c.toNat - '0'.toNat)) 0

/-- Strip trailing zero decimal digits from a raw (mantissa, scale) pair;
the fuel (the initial scale) always suffices. -/
def normAmountF : Nat → Nat × Nat → Nat × Nat
  | 0, p => p
  | fuel + 1, (m, s) =>
    if s = 0 then (m, 0)
    else if m % 10 = 0 then normAmountF fuel (m / 10, s - 1)
    else (m, s)

/-- Models Python `float(tok)` restricted to decimal literals: an optional
sign, digits, an optional point, digits — with at least one digit.  (The
exotic forms `float` also accepts — exponents, `inf`, `nan` — are outside
the model.)  The result is the exact decimal value in normalized
fixed-point form. -/
def parseAmount (s : String) : Option Amount :=
  match s.data with
  | [] => none
  | cs =>
    let signed : Int × List Char :=
      match cs with
      | '-' :: t => (-1, t)
      | '+' :: t => (1, t)
      | _ => (1, cs)
    let ip := signed.2.takeWhile Char.isDigit
    let rest := signed.2.dropWhile Char.isDigit
    match rest with
    | [] =>
      if ip.isEmpty then none else some ⟨signed.1 * (digitsVal ip : Int), 0⟩
    | '.' :: fp =>
      if fp.all Char.isDigit && !(ip.isEmpty && fp.isEmpty) then
        let raw := normAmountF fp.length
          (digitsVal ip * 10 ^ fp.length + digitsVal fp, fp.length)
        some ⟨signed.1 * (raw.1 : Int), raw.2⟩
      else none
    | _ => none

/-- Left-pad a digit string with zeros to width `k`. -/
def padZeros (s : String) (k : Nat) : String :=
  String.mk (List.replicate (k - s.data.length) '0') ++ s

/-- Models Python `str(float)` on the normalized decimal values
`parseAmount` produces: integer values print with a trailing `.0`
(e.g. `100.0`), other values print their decimal digits (e.g. `0.05`). -/
def reprAmount (a : Amount) : String :=
  let sgn := if a.mant < 0 then "-" else ""
  let n := a.mant.natAbs
  if a.scale = 0 then sgn ++ toString n ++ ".0"
  else
    sgn ++ toString (n / 10 ^ a.scale) ++ "." ++
      padZeros (toString (n % 10 ^ a.scale)) a.scale

/-- Models `add_to_google_sheet` (bot.py lines 99-127).  The Google
credentials / spreadsheet availability are collapsed into `sheetOk`; when
the backend is available the row `[date, category, amount, note]` is
appended and `True` returned, otherwise nothing is written and `False`
returned. -/
def add_to_google_sheet (sheetOk : Bool) (row : LedgerRow) : Bool × Option LedgerRow :=
  if sheetOk then (true, some row) else (false, none)

/-- The fixed usage-hint reply of `spend_cmd` (bot.py line 456). -/
def spendUsageHint : String := "格式: /spend 100 午餐"

/-- The reply of `spend_cmd` when `add_to_google_sheet` returns `False`. -/
def sheetFailMsg : String := "❌ 記帳失敗"

/-- The confirmation reply on a successful spend (bot.py line 454,
`f"💸 已記帳: \x7bcat\x7d $\x7bamt\x7d"`). -/
def spendConfirm (cat : String) (amt : Amount) : String :=
  "💸 已記帳: " ++ cat ++ " $" ++ reprAmount amt

/-- Models `spend_cmd` (bot.py lines 448-456).  `args` is
python-telegram-bot's `context.args` (the whitespace-split words after the
command).  Returns the reply text and the ledger row written, if any.
`float(args[0])` failing or `args[1]` missing raises inside the `try`,
producing the usage hint with nothing written. -/
def spend_cmd (sheetOk : Bool) (today : String) (args : List String) :
    String × Option LedgerRow :=
  match args with
  | tok :: cat :: rest =>
    match parseAmount tok with
    | some amt =>
      let row : LedgerRow := ⟨today, cat, amt, String.intercalate " " rest⟩
      match add_to_google_sheet sheetOk row with
      | (true, written) => (spendConfirm cat amt, written)
      | (false, _) => (sheetFailMsg, none)
    | none => (spendUsageHint, none)
  | _ => (spendUsageHint, none)

/-- Models `context.args`: the whitespace-split words of the message text
after the leading command word. -/
def contextArgs (text : String) : List String := (splitTokens text).tail

/-! ## JSON values and `json.loads` (used by `add_event`, bot.py 171-207)

A small strict JSON parser modelling Python's `json.loads`: it parses the
whole input and fails on any leading or trailing non-JSON text.  Numbers
are modelled as integers (the provider is asked for integer minutes;
fractional and exponent forms are outside the model), and string escapes
cover the plain `\" \\ / n t r` forms. -/

inductive JVal where
  | jnull
  | jbool (b : Bool)
  | jnum (n : Int)
  | jstr (s : String)
  | jarr (xs : List JVal)
  | jobj (fields : List (String × JVal))

/-- Skip JSON whitespace. -/
def skipWs (cs : List Char) : List Char :=
  cs.dropWhile (fun c => c = ' ' || c = '\n' || c = '\t' || c = '\r')

/-- Parse the remainder of a JSON string literal (the opening quote
already consumed), returning the string and the rest. -/
def parseStr : List Char → Option (List Char × List Char)
  | [] => none
  | '"' :: rest => some ([], rest)
  | '\\' :: e :: rest =>
    let c : Option Char :=
      match e with
      | '"' => some '"'
      | '\\' => some '\\'
      | '/' => some '/'
      | 'n' => some '\n'
      | 't' => some '\t'
      | 'r' => some '\r'
      | _ => none
    match c with
    | some c =>
      match parseStr rest with
      | some (s, r) => some (c :: s, r)
      | none => none
    | none => none
  | c :: rest =>
    match parseStr rest with
    | some (s, r) => some (c :: s, r)
    | none => none

mutual

/-- Parse a JSON value (fuel-bounded recursion). -/
def parseVal : Nat → List Char → Option (JVal × List Char)
  | 0, _ => none
  | fuel + 1, cs =>
    match skipWs cs with
    | '"' :: rest =>
      match parseStr rest with
      | some (s, r) => some (JVal.jstr (String.mk s), r)
      | none => none
    | 'n' :: 'u' :: 'l' :: 'l' :: r => some (JVal.jnull, r)
    | 't' :: 'r' :: 'u' :: 'e' :: r => some (JVal.jbool true, r)
    | 'f' :: 'a' :: 'l' :: 's' :: 'e' :: r => some (JVal.jbool false, r)
    | '-' :: rest =>
      let ds := rest.takeWhile Char.isDigit
      if ds.isEmpty then none
      else some (JVal.jnum (-(digitsVal ds : Int)), rest.dropWhile Char.isDigit)
    | '\x7b' :: rest =>
      match skipWs rest with
      | '\x7d' :: r => some (JVal.jobj [], r)
      | rest2 =>
        match parseMembers fuel rest2 with
        | some (fs, r) => some (JVal.jobj fs, r)
        | none => none
    | '[' :: rest =>
      match skipWs rest with
      | ']' :: r => some (JVal.jarr [], r)
      | rest2 =>
        match parseElems fuel rest2 with
        | some (xs, r) => some (JVal.jarr xs, r)
        | none => none
    | c :: rest =>
      if c.isDigit then
        let ds := (c :: rest).takeWhile Char.isDigit
        some (JVal.jnum (digitsVal ds : Int), (c :: rest).dropWhile Char.isDigit)
      else none
    | [] => none

/-- Parse the members of a JSON object after the opening brace (at least
one member), consuming the closing brace. -/
def parseMembers : Nat → List Char → Option (List (String × JVal) × List Char)
  | 0, _ => none
  | fuel + 1, cs =>
    match skipWs cs with
    | '"' :: rest =>
      match parseStr rest with
      | some (k, r1) =>
        match skipWs r1 with
        | ':' :: r2 =>
          match parseVal fuel r2 with
          | some (v, r3) =>
            match skipWs r3 with
            | ',' :: r4 =>
              match parseMembers fuel r4 with
              | some (fs, r5) => some ((String.mk k, v) :: fs, r5)
              | none => none
            | '\x7d' :: r4 => some ([(String.mk k, v)], r4)
            | _ => none
          | none => none
        | _ => none
      | none => none
    | _ => none

/-- Parse the elements of a JSON array after the opening bracket (at
least one element), consuming the closing bracket. -/
def parseElems : Nat → List Char → Option (List JVal × List Char)
  | 0, _ => none
  | fuel + 1, cs =>
    match parseVal fuel cs with
    | some (v, r) =>
      match skipWs r with
      | ',' :: r2 =>
        match parseElems fuel r2 with
        | some (xs, r3) => some (v :: xs, r3)
        | none => none
      | ']' :: r2 => some ([v], r2)
      | _ => none
    | none => none

end

/-- Models Python `json.loads`: parse one JSON value and require that
only whitespace follows (`json.loads` raises on extra data, leading
prose, or unparsable input — all modelled as `none`). -/
def jsonLoads (s : String) : Option JVal :=
  match parseVal (s.data.length + 1) s.data with
  | some (v, rest) => if (skipWs rest).isEmpty then some v else none
  | none => none

/-! ## `add_event` extraction pipeline (bot.py lines 171-207) -/

/-- Models the fence-cleaning step (bot.py lines 187-188): only when the
stripped content starts with a fence, the regex
`re.sub(r'^```json\s*|^```\s*|```$', '', content, flags=re.MULTILINE)`
followed by `.strip()` is applied.  Modelled on the common single-fence
shape: drop a leading ```` ```json ```` or ```` ``` ```` with the
whitespace after it, drop one trailing ```` ``` ````, and strip. -/
def stripFences (s : String) : String :=
  if startsWithStr s "```" then
    let t :=
      if startsWithStr s "```json" then String.mk (s.data.drop 7)
      else String.mk (s.data.drop 3)
    let t := String.mk (t.data.dropWhile Char.isWhitespace)
    let t :=
      if startsWithStr (String.mk t.data.reverse) "```" then
        String.mk (t.data.dropLast.dropLast.dropLast)
      else t
    trimS t
  else s

/-- The parse-failure reply of `add_event` (bot.py line 193,
`f"❌ 無法解析 AI 回應: \x7bcontent\x7d"`): the error is surfaced to the
user together with the raw content. -/
def addEventParseFail (content : String) : String :=
  "❌ 無法解析 AI 回應: " ++ content

/-- The reply produced by `add_event`'s outer `except` (bot.py line 207,
`f"❌ 失敗: \x7be\x7d"`); the appended exception text is abstracted. -/
def addEventFailMsg : String := "❌ 失敗"

/-- Models lines 184-193 of `add_event`: strip the raw provider content,
clean fences when present, then `json.loads` the WHOLE remaining text; on
failure return (not raise) the parse-failure reply naming the content. -/
def extract_json (raw : String) : Except String JVal :=
  let content := stripFences (trimS raw)
  match jsonLoads content with
  | some js => Except.ok js
  | none => Except.error (addEventParseFail content)

/-- Field lookup in a recovered JSON object; `none` models the `KeyError`
/ `TypeError` Python raises on `js[k]` when the key is missing or `js` is
not a dict (both land in `add_event`'s outer `except`). -/
def jlookup (js : JVal) (k : String) : Option JVal :=
  match js with
  | JVal.jobj fs => (fs.find? (fun f => f.1 = k)).map (fun f => f.2)
  | _ => none

/-- Models `datetime.datetime.fromisoformat` restricted to the shapes the
provider is prompted for: `YYYY-MM-DDTHH:MM` (also with a space
separator) or a bare date `YYYY-MM-DD`.  The result is a point on an
abstract linear minute axis (year/month/day folded in injectively); only
its additive structure is used. -/
def parseIso (s : String) : Option Int :=
  match s.data with
  | [y1, y2, y3, y4, '-', m1, m2, '-', d1, d2, sep, h1, h2, ':', n1, n2] =>
    if [y1, y2, y3, y4, m1, m2, d1, d2, h1, h2, n1, n2].all Char.isDigit
        && (sep = 'T' || sep = ' ') then
      some ((digitsVal [y1, y2, y3, y4] : Int) * 527040
        + (digitsVal [m1, m2] : Int) * 44640
        + (digitsVal [d1, d2] : Int) * 1440
        + (digitsVal [h1, h2] : Int) * 60
        + (digitsVal [n1, n2] : Int))
    else none
  | [y1, y2, y3, y4, '-', m1, m2, '-', d1, d2] =>
    if [y1, y2, y3, y4, m1, m2, d1, d2].all Char.isDigit then
      some ((digitsVal [y1, y2, y3, y4] : Int) * 527040
        + (digitsVal [m1, m2] : Int) * 44640
        + (digitsVal [d1, d2] : Int) * 1440)
    else none
  | _ => none

/-- The calendar event body `add_event` builds and inserts (bot.py lines
195-202): summary, start and end on the minute axis, plus the duration
that was used to derive the end. -/
structure BuiltEvent where
  summary : JVal
  startMin : Int
  endMin : Int
  durUsed : Int

/-- Models `js.get('duration_minutes', 60)` as consumed by
`timedelta(minutes=...)`: an absent key yields 60; a present number is
used as-is (even zero or negative); a present non-number makes
`timedelta` raise (modelled `none`, landing in the outer `except`). -/
def jdur (js : JVal) : Option Int :=
  match jlookup js "duration_minutes" with
  | none => some 60
  | some (JVal.jnum d) => some d
  | some _ => none

/-- The `js['start_time']` access as `fromisoformat` consumes it: the
value must be present and a string (a missing key raises `KeyError`, a
non-string raises `TypeError`; both land in the outer `except`). -/
def jStartStr (js : JVal) : Option String :=
  match jlookup js "start_time" with
  | some (JVal.jstr st) => some st
  | _ => none

/-- Models lines 195-202 of `add_event`: parse `js['start_time']`,
compute `end = start + timedelta(minutes=js.get('duration_minutes', 60))`,
and require `js['summary']` to be present.  Any failure raises into the
outer `except`, whose reply is `addEventFailMsg`. -/
def build_event (js : JVal) : Except String BuiltEvent :=
  match jStartStr js with
  | some st =>
    match parseIso st with
    | some start =>
      match jdur js with
      | some d =>
        match jlookup js "summary" with
        | some sm => Except.ok ⟨sm, start, start + d, d⟩
        | none => Except.error addEventFailMsg
      | none => Except.error addEventFailMsg
    | none => Except.error addEventFailMsg
  | none => Except.error addEventFailMsg

/-- The full `add_event` response-processing pipeline, from the raw
provider content to the event body inserted into the calendar (or the
failure reply). -/
def add_event_core (raw : String) : Except String BuiltEvent :=
  match extract_json raw with
  | Except.error m => Except.error m
  | Except.ok js => build_event js

/-- Follows the SPEC's words (§4.2 brace-scanning, not the source): the
substring from the first `\x7b` forward to the last `\x7d` backward,
inclusive; `none` when no such pair exists.  Used to compare the spec's
claimed recovery strategy with what the source does. -/
def braceSlice (s : String) : Option String :=
  let fromOpen := s.data.dropWhile (fun c => c ≠ '\x7b')
  let upToClose := (fromOpen.reverse.dropWhile (fun c => c ≠ '\x7d')).reverse
  if upToClose.isEmpty then none else some (String.mk upToClose)

/-! ## Calendar lookup, delete and update (bot.py lines 249-340)

An upcoming calendar event as the lookup sees it: title, start time on
the minute axis, and the id used by delete/patch.  `find_event_by_query`
receives the events already ordered by start time (the API call uses
`orderBy='startTime'`); ordering enters the theorems as a hypothesis. -/

structure CalEvent where
  summary : String
  startMin : Int
  eid : Nat
deriving DecidableEq

/-- Consume a lazy parenthesized body after an opening paren: everything
up to the first `)` (a newline aborts, as `.` does not match it), and
return the rest after the `)`. -/
def parenBody : List Char → Option (List Char)
  | [] => none
  | ')' :: r => some r
  | '\n' :: _ => none
  | _ :: r => parenBody r

/-- Try to match the regex `\s*\(.*?\)` at the head of the input,
returning the remainder on success. -/
def tryParenMatch (cs : List Char) : Option (List Char) :=
  match cs.dropWhile Char.isWhitespace with
  | '(' :: r => parenBody r
  | _ => none

/-- Models `re.sub(r'\s*\(.*?\)', '', query)`: repeatedly delete the
leftmost occurrence of optional whitespace followed by a lazily matched
paren group.  Fuel-driven; the fuel (the input length) always suffices. -/
def stripParensF : Nat → List Char → List Char
  | 0, cs => cs
  | _ + 1, [] => []
  | fuel + 1, c :: t =>
    match tryParenMatch (c :: t) with
    | some rest => stripParensF fuel rest
    | none => c :: stripParensF fuel t

/-- Models lines 260 of `find_event_by_query`:
`re.sub(r'\s*\(.*?\)', '', query).strip()`.  Note: parenthesized
annotations are removed, but NO trigger-word stripping happens here. -/
def cleanQuery (query : String) : String :=
  trimS (String.mk (stripParensF query.data.length query.data))

/-- The match test of the search loop (bot.py lines 264-271): the cleaned
query is a lower-cased substring of the title, or the lower-cased title
is a substring of the cleaned query AND the title is longer than one
character. -/
def eventMatches (cq : String) (e : CalEvent) : Bool :=
  let s := lowerS e.summary
  let ql := lowerS cq
  substrB ql s || (substrB s ql && s.data.length > 1)

/-- The `matches` list accumulated by the search loop, in event-list
order. -/
def findMatches (events : List CalEvent) (cq : String) : List CalEvent :=
  events.filter (eventMatches cq)

/-- The not-found reply (bot.py lines 274-277): names the cleaned query
and lists the first five upcoming titles as suggestions. -/
def notFoundMsg (cq : String) (events : List CalEvent) : String :=
  "❌ 找不到包含 \x27" ++ cq ++ "\x27 的近期行程。\n建議：\n" ++
  String.join ((events.take 5).map (fun e => "- " ++ e.summary ++ "\n"))

/-- Exact (case-insensitive) title equality with the cleaned query
(bot.py line 280). -/
def isExact (cq : String) (e : CalEvent) : Bool := lowerS e.summary == lowerS cq

/-- Models `find_event_by_query` (bot.py lines 249-286): no match yields
the not-found reply; among matches, the sole exact title match is
preferred when there is exactly one, otherwise `matches[0]` (the
earliest-starting, since the list arrives start-ordered) is returned. -/
def find_event_by_query (events : List CalEvent) (query : String) :
    Except String CalEvent :=
  let cq := cleanQuery query
  match findMatches events cq with
  | [] => Except.error (notFoundMsg cq events)
  | m :: ms =>
    match (m :: ms).filter (isExact cq) with
    | [e] => Except.ok e
    | _ => Except.ok m

/-- Models `delete_event` (bot.py lines 288-297): a lookup failure is
returned as the reply with no deletion; on a found target the delete API
is called (its own success abstracted by `delOk`).  The second component
is the id of the deleted event, `none` when nothing was deleted. -/
def delete_event (delOk : Bool) (events : List CalEvent) (query : String) :
    String × Option Nat :=
  match find_event_by_query events query with
  | Except.error m => (m, none)
  | Except.ok t =>
    if delOk then ("🗑️ 已刪除行程: " ++ t.summary, some t.eid)
    else ("❌ 刪除失敗", none)

/-- Models the lookup step of `update_event` (bot.py lines 299-340) with
the two provider calls abstracted: `targetKw` is the target-keyword
string already recovered from the provider.  A lookup failure is returned
as the reply and no patch is issued; on success the target's id would be
patched.  The second component is the id of the patched event, `none`
when nothing was patched. -/
def update_event_lookup (events : List CalEvent) (targetKw : String) :
    String × Option Nat :=
  match find_event_by_query events targetKw with
  | Except.error m => (m, none)
  | Except.ok t => ("🔄 已更新: " ++ t.summary, some t.eid)

/-! ## Helper lemmas -/

theorem isPrefixOf_append_self (n b : List Char) : n.isPrefixOf (n ++ b) = true := by
  induction n with
  | nil => simp [List.isPrefixOf]
  | cons c t ih => simp [List.isPrefixOf, ih]

theorem isInfB_nil_left (h : List Char) : isInfB [] h = true := by
  cases h <;> simp [isInfB, List.isPrefixOf]

theorem isInfB_of_mid (a n b : List Char) : isInfB n (a ++ n ++ b) = true := by
  induction a with
  | nil =>
    cases n with
    | nil => simpa using isInfB_nil_left b
    | cons x xs =>
      show isInfB (x :: xs) ((x :: xs) ++ b) = true
      rw [List.cons_append]
      simp [isInfB, isPrefixOf_append_self]
  | cons c a' ih =>
    have hsh : (c :: a') ++ n ++ b = c :: (a' ++ n ++ b) := by simp
    rw [hsh]
    show (n.isPrefixOf (c :: (a' ++ n ++ b)) || isInfB n (a' ++ n ++ b)) = true
    rw [ih, Bool.or_true]

theorem substrB_of_data (n h : String) (a b : List Char)
    (hd : h.data = a ++ n.data ++ b) : substrB n h = true := by
  unfold substrB
  rw [hd]
  exact isInfB_of_mid a n.data b

theorem substrB_append_right (p n : String) : substrB n (p ++ n) = true := by
  apply substrB_of_data n (p ++ n) p.data []
  simp [String.data_append]

theorem substrB_sandwich (p n s : String) : substrB n (p ++ n ++ s) = true := by
  apply substrB_of_data n (p ++ n ++ s) p.data s.data
  simp [String.data_append]

theorem commandToken_none_of_not_slash (text : String)
    (h : startsSlash text = false) : commandToken text = none := by
  simp [commandToken, h]

theorem marks_false_of_not_slash (text : String)
    (h : startsSlash text = false) : telegramMarksCommand text = false := by
  unfold startsSlash at h
  unfold telegramMarksCommand
  match hd : text.data with
  | [] => rfl
  | [c] => rfl
  | a :: c :: t =>
    rw [hd] at h
    simp only [startsSlashL] at h
    simp [telegramMarksCommandL, h]

theorem find_registered_mem (names : List String) (text tok : String)
    (h : commandToken text = some tok) (hmem : tok ∈ names) :
    (names.map Handler.cmdH ++ [Handler.chatH]).find?
      (fun hh => handlerAccepts hh text) = some (Handler.cmdH tok) := by
  induction names with
  | nil => cases hmem
  | cons n ns ih =>
    by_cases hn : n = tok
    · subst hn
      simp [List.find?_cons_of_pos, handlerAccepts, h]
    · have hrej : handlerAccepts (Handler.cmdH n) text = false := by
        simp [handlerAccepts, h]
        exact fun hc => absurd hc.symm hn
      have hmem' : tok ∈ ns := by
        cases hmem with
        | head => exact absurd rfl hn
        | tail _ hm => exact hm
      simpa [List.find?_cons_of_neg, hrej] using ih hmem'

theorem find_registered_none (names : List String) (text tok : String)
    (h : commandToken text = some tok) (hmem : tok ∉ names)
    (hmarks : telegramMarksCommand text = true) :
    (names.map Handler.cmdH ++ [Handler.chatH]).find?
      (fun hh => handlerAccepts hh text) = none := by
  induction names with
  | nil =>
    simp [List.find?, handlerAccepts, hmarks]
  | cons n ns ih =>
    have hn : n ≠ tok := fun hc => hmem (hc ▸ List.mem_cons_self n ns)
    have hrej : handlerAccepts (Handler.cmdH n) text = false := by
      simp [handlerAccepts, h]
      exact fun hc => absurd hc.symm hn
    have hmem' : tok ∉ ns := fun hc => hmem (List.mem_cons_of_mem n hc)
    simpa [List.find?_cons_of_neg, hrej] using ih hmem'

theorem dispatch_free_text (text : String) (hs : startsSlash text = false)
    (hne : text ≠ "") : dispatch text = some Handler.chatH := by
  have htok := commandToken_none_of_not_slash text hs
  have hmk := marks_false_of_not_slash text hs
  have hchat : handlerAccepts Handler.chatH text = true := by
    simp [handlerAccepts, hmk, hne]
  unfold dispatch registeredHandlers
  have hall : ∀ n, handlerAccepts (Handler.cmdH n) text = false := by
    intro n
    simp [handlerAccepts, htok]
  induction registeredCommands with
  | nil => simp [List.find?_cons_of_pos, hchat]
  | cons n ns ih =>
    simpa [List.find?_cons_of_neg, hall n] using ih

/-! ## Claim C1 — ledger-keyword safety net -/

/-- C1 counterexample: the free-text message `"花費 100 元 午餐"` ("spent
100 dollars, lunch") contains the ledger trigger wording, yet dispatch
hands it to the trailing chat handler (`msg_handler` → `ai_chat`), which
is not the spend handler.  The claimed CHAT→SPEND safety-net override
does not exist in the code: `msg_handler` (bot.py 541-542) calls
`ai_chat` unconditionally, with no intent classification and no keyword
check. -/
theorem C1_counterexample :
    dispatch "花費 100 元 午餐" = some Handler.chatH ∧
    Handler.chatH ≠ Handler.cmdH "spend" := by
  exact ⟨by decide, by decide⟩

/-- C1 (amended): every non-empty free-text message not starting with the
command prefix — whatever ledger keywords it contains — is dispatched to
the conversational-reply handler (`msg_handler` → `ai_chat`); no
classifier and no SPEND override exist in the dispatch path. -/
theorem C1_free_text_always_chat (text : String)
    (hs : startsSlash text = false) (hne : text ≠ "") :
    dispatch text = some Handler.chatH :=
  dispatch_free_text text hs hne

/-- C1 witness: the amended theorem applied to the keyword-bearing
message of the counterexample's kind. -/
theorem C1_witness :
    startsSlash "想記帳 花了100元" = false ∧ "想記帳 花了100元" ≠ "" ∧
    dispatch "想記帳 花了100元" = some Handler.chatH :=
  ⟨by decide, by decide, C1_free_text_always_chat _ (by decide) (by decide)⟩

/-! ## Claim C2 — fast-path exclusivity -/

/-- C2: a message starting with the command prefix whose command token is
a registered command is dispatched by that command's handler, and never
by the trailing free-text handler (the only path to `ai_chat`, the
conversational-reply handler): python-telegram-bot runs only the first
accepting handler of the group, and all `CommandHandler`s are registered
before `msg_handler`. -/
theorem C2_fast_path_exclusive (text tok : String)
    (htok : commandToken text = some tok) (hrec : tok ∈ registeredCommands) :
    dispatch text = some (Handler.cmdH tok) ∧
    dispatch text ≠ some Handler.chatH := by
  have h := find_registered_mem registeredCommands text tok htok hrec
  have hd : dispatch text = some (Handler.cmdH tok) := h
  exact ⟨hd, by rw [hd]; simp⟩

/-- C2 witness: the theorem applied to `"/spend 100 午餐"`. -/
theorem C2_witness :
    commandToken "/spend 100 午餐" = some "spend" ∧
    "spend" ∈ registeredCommands ∧
    (dispatch "/spend 100 午餐" = some (Handler.cmdH "spend") ∧
      dispatch "/spend 100 午餐" ≠ some Handler.chatH) :=
  ⟨by decide, by decide, C2_fast_path_exclusive _ _ (by decide) (by decide)⟩

/-! ## Claim C3 — unrecognized command fallthrough -/

/-- C3 counterexample: `"/frobnicate hello"` starts with the prefix and
its token is unrecognized; the claim says it falls through to the slow
path (classification / conversational reply) and produces that path's
response.  In the code no handler accepts it — Telegram marks it a bot
command, so the `~filters.COMMAND` filter of `msg_handler` excludes it —
and the update is dropped silently. -/
theorem C3_counterexample :
    dispatch "/frobnicate hello" = none ∧
    telegramMarksCommand "/frobnicate hello" = true ∧
    commandToken "/frobnicate hello" = some "frobnicate" ∧
    "frobnicate" ∉ registeredCommands := by
  refine ⟨by decide, by decide, by decide, by decide⟩

/-- C3 (amended): a message that Telegram marks as a bot command but whose
command token is not a registered command matches no handler at all: it
is silently dropped — neither the slow path (`msg_handler` / `ai_chat`)
nor an error response. -/
theorem C3_unrecognized_command_silently_dropped (text tok : String)
    (hmk : telegramMarksCommand text = true)
    (htok : commandToken text = some tok)
    (hrec : tok ∉ registeredCommands) :
    dispatch text = none := by
  unfold dispatch registeredHandlers
  exact find_registered_none registeredCommands text tok htok hrec hmk

/-- C3 witness: the amended theorem applied to `"/frobnicate hello"`. -/
theorem C3_witness :
    telegramMarksCommand "/frobnicate hello" = true ∧
    commandToken "/frobnicate hello" = some "frobnicate" ∧
    "frobnicate" ∉ registeredCommands ∧
    dispatch "/frobnicate hello" = none :=
  ⟨by decide, by decide, by decide,
    C3_unrecognized_command_silently_dropped "/frobnicate hello" "frobnicate"
      (by decide) (by decide) (by decide)⟩

/-! ## Claim C4 — strict parse vs. claimed brace-scanning recovery -/

/-- A provider response wrapping a valid JSON object in prose. -/
def c4rawResponse : String :=
  "Sure! \x7b\"summary\": \"Demo\", \"start_time\": \"2026-10-12T09:00\"\x7d Hope this helps."

/-- C4 counterexample: on a provider response wrapping a valid JSON
object in prose, the claim says the substring from the first brace to the
last brace is parsed (here successfully — second conjunct) and that on
any failure the result is a silent CHAT default.  The code instead feeds
the WHOLE text to `json.loads`, fails, and surfaces an error reply naming
the content; no brace-pair scan and no CHAT default exist (there is no
intent classifier in this revision at all). -/
theorem C4_counterexample :
    add_event_core c4rawResponse = Except.error (addEventParseFail c4rawResponse) ∧
    ((braceSlice c4rawResponse).bind jsonLoads).isSome = true := by
  exact ⟨rfl, rfl⟩

/-- C4 (amended): the extractor strips markdown fences when present and
then parses the ENTIRE remaining text as strict JSON; when that parse
fails, the failure is surfaced as an error reply embedding the content —
there is no brace-delimited recovery and no `\x7bintent: CHAT\x7d`
default. -/
theorem C4_whole_text_parse_failure_surfaced (raw : String)
    (hfence : startsWithStr (trimS raw) "```" = false)
    (hbad : jsonLoads (trimS raw) = none) :
    add_event_core raw = Except.error (addEventParseFail (trimS raw)) := by
  have hsf : stripFences (trimS raw) = trimS raw := by
    simp [stripFences, hfence]
  simp [add_event_core, extract_json, hsf, hbad]

/-- C4 witness: the amended theorem applied to a brace-free response. -/
theorem C4_witness :
    startsWithStr (trimS "no json here") "```" = false ∧
    jsonLoads (trimS "no json here") = none ∧
    add_event_core "no json here" =
      Except.error (addEventParseFail (trimS "no json here")) :=
  ⟨by rfl, by rfl, C4_whole_text_parse_failure_surfaced "no json here" (by rfl) (by rfl)⟩

/-! ## Claim C5 — routing never raises, failures become strings -/

/-- C5 counterexample: with a provider that successfully returns an empty
completion, `ai_chat` returns the empty string for the non-empty,
non-command input `"hello"` — so "routing returns a non-empty string" is
not guaranteed by the code (the reply is returned verbatim). -/
theorem C5_counterexample :
    ai_chat (fun _ _ => Except.ok "") (fun _ => Except.error ()) "hello" = "" ∧
    "hello" ≠ "" ∧ startsSlash "hello" = false ∧
    dispatch "hello" = some Handler.chatH := by
  exact ⟨rfl, by decide, by decide, by decide⟩

/-- C5 (amended): a non-empty free-text message is dispatched to
`msg_handler`/`ai_chat`; `ai_chat` is total (never raises), returns the
provider's reply verbatim — hence non-empty whenever the provider's reply
is non-empty — and converts a raising provider into the fixed non-empty
fallback string. -/
theorem C5_failures_become_strings (capi : ChatApi) (wapi : WeatherApi)
    (text : String) (hs : startsSlash text = false) (hne : text ≠ "")
    (hok : ∀ s u r, capi s u = Except.ok r → r ≠ "") :
    dispatch text = some Handler.chatH ∧
    ai_chat capi wapi text ≠ "" ∧
    ((∀ s u, capi s u = Except.error ()) →
      ai_chat capi wapi text = chatFallbackMsg) := by
  refine ⟨dispatch_free_text text hs hne, ?_, ?_⟩
  · cases hc : capi (lumioSystemPrompt (aiWeatherCtx wapi text)) text with
    | ok r =>
      have hr := hok _ _ _ hc
      simpa [ai_chat, hc] using hr
    | error e =>
      simp [ai_chat, hc]
      decide
  · intro hall
    simp [ai_chat, hall (lumioSystemPrompt (aiWeatherCtx wapi text)) text]

/-- C5 witness: the amended theorem applied to a concrete non-empty-reply
provider and the message `"嗨"`. -/
theorem C5_witness :
    startsSlash "嗨" = false ∧ "嗨" ≠ "" ∧
    (∀ s u r, (fun _ _ => Except.ok "好的！" : ChatApi) s u = Except.ok r → r ≠ "") ∧
    (dispatch "嗨" = some Handler.chatH ∧
      ai_chat (fun _ _ => Except.ok "好的！") (fun _ => Except.error ()) "嗨" ≠ "" ∧
      ((∀ s u, (fun _ _ => Except.ok "好的！" : ChatApi) s u = Except.error ()) →
        ai_chat (fun _ _ => Except.ok "好的！") (fun _ => Except.error ()) "嗨" =
          chatFallbackMsg)) :=
  ⟨by decide, by decide,
   fun s u r h => by simp at h; subst h; decide,
   C5_failures_become_strings (fun _ _ => Except.ok "好的！")
     (fun _ => Except.error ()) "嗨" (by decide) (by decide)
     (fun s u r h => by simp at h; subst h; decide)⟩

/-! ## Claim C6 — spend argument parsing fails closed -/

/-- The argument shapes on which `spend_cmd` raises before any sheet
write: fewer than two tokens, or a non-numeric first token. -/
def spendArgsBad (args : List String) : Bool :=
  match args with
  | tok :: _ :: _ => (parseAmount tok).isNone
  | _ => true

/-- C6: with the sheet backend available, a numeric first token and a
present category token produce exactly one appended row
`(today, category, amount, joined rest as note)` and a confirmation
containing the amount and the category; a non-numeric first token or a
missing category token produce the fixed usage hint and no row, for any
backend state. -/
theorem C6_spend_parses_or_fails_closed (today : String) (args : List String) :
    (∀ tok cat rest amt, args = tok :: cat :: rest → parseAmount tok = some amt →
      spend_cmd true today args =
        (spendConfirm cat amt, some ⟨today, cat, amt, String.intercalate " " rest⟩) ∧
      substrB (reprAmount amt) (spendConfirm cat amt) = true ∧
      substrB cat (spendConfirm cat amt) = true) ∧
    (∀ sheetOk, spendArgsBad args = true →
      spend_cmd sheetOk today args = (spendUsageHint, none)) := by
  constructor
  · rintro tok cat rest amt rfl hamt
    refine ⟨?_, ?_, ?_⟩
    · simp [spend_cmd, hamt, add_to_google_sheet]
    · exact substrB_of_data _ _ ("💸 已記帳: " ++ cat ++ " $").data []
        (by simp [spendConfirm, String.data_append])
    · exact substrB_of_data _ _ ("💸 已記帳: ").data (" $" ++ reprAmount amt).data
        (by simp [spendConfirm, String.data_append])
  · intro sheetOk hbad
    match args with
    | [] => simp [spend_cmd]
    | [tok] => simp [spend_cmd]
    | tok :: cat :: rest =>
      have hnone : parseAmount tok = none := by
        simpa [spendArgsBad, Option.isNone_iff_eq_none] using hbad
      simp [spend_cmd, hnone]

/-- C6 witness: the theorem applied to `"/spend 100 午餐"`'s arguments and
to a non-numeric first token. -/
theorem C6_witness :
    (spend_cmd true "2026-10-12" ["100", "午餐"] =
      (spendConfirm "午餐" ⟨100, 0⟩,
        some ⟨"2026-10-12", "午餐", ⟨100, 0⟩, String.intercalate " " []⟩) ∧
      substrB (reprAmount ⟨100, 0⟩) (spendConfirm "午餐" ⟨100, 0⟩) = true ∧
      substrB "午餐" (spendConfirm "午餐" ⟨100, 0⟩) = true) ∧
    spend_cmd true "2026-10-12" ["abc", "午餐"] = (spendUsageHint, none) :=
  ⟨(C6_spend_parses_or_fails_closed "2026-10-12" ["100", "午餐"]).1
      "100" "午餐" [] ⟨100, 0⟩ rfl (by decide),
   (C6_spend_parses_or_fails_closed "2026-10-12" ["abc", "午餐"]).2 true (by decide)⟩

/-! ## Claim C7 — end time derivation -/

/-- A recovered event JSON whose `duration_minutes` is present but 0. -/
def c7dur0Json : JVal :=
  JVal.jobj [("summary", JVal.jstr "Demo"),
             ("start_time", JVal.jstr "2026-10-12T09:00"),
             ("duration_minutes", JVal.jnum 0)]

/-- The parsed start time of the C7 inputs. -/
def c7start : Int := (parseIso "2026-10-12T09:00").getD 0

/-- C7 counterexample: with `duration_minutes` present but 0 (non-
positive), the claim says the default 60 applies, so the stored end
should be `start + 60`; the code uses `js.get('duration_minutes', 60)`,
which only defaults when the key is ABSENT, and stores `end = start`. -/
theorem C7_counterexample :
    build_event c7dur0Json = Except.ok ⟨JVal.jstr "Demo", c7start, c7start, 0⟩ ∧
    c7start ≠ c7start + 60 := by
  exact ⟨rfl, by decide⟩

/-- C7 (amended): for every successfully built event, the stored end time
equals `start + duration` on the minute axis, where the duration is taken
verbatim from the recovered JSON when the key is present (even if zero or
negative) and defaults to 60 only when absent; the end is derived, never
provider-supplied. -/
theorem C7_end_start_plus_duration (js : JVal) (ev : BuiltEvent)
    (h : build_event js = Except.ok ev) :
    ev.endMin = ev.startMin + ev.durUsed ∧
    (jlookup js "duration_minutes" = none → ev.durUsed = 60) ∧
    (∀ d, jlookup js "duration_minutes" = some (JVal.jnum d) → ev.durUsed = d) := by
  rcases hst : jStartStr js with _ | st
  · simp [build_event, hst] at h
  · rcases hpi : parseIso st with _ | start
    · simp [build_event, hst, hpi] at h
    · rcases hd : jdur js with _ | d
      · simp [build_event, hst, hpi, hd] at h
      · rcases hsm : jlookup js "summary" with _ | sm
        · simp [build_event, hst, hpi, hd, hsm] at h
        · simp only [build_event, hst, hpi, hd, hsm] at h
          injection h with h
          subst h
          refine ⟨rfl, ?_, ?_⟩
          · intro hnone
            have h60 : jdur js = some 60 := by simp [jdur, hnone]
            rw [hd] at h60
            injection h60 with h60
          · intro d' hd'
            have hh : jdur js = some d' := by simp [jdur, hd']
            rw [hd] at hh
            injection hh with hh

/-- A recovered event JSON with a present, positive duration. -/
def c7dur45Json : JVal :=
  JVal.jobj [("summary", JVal.jstr "Demo"),
             ("start_time", JVal.jstr "2026-10-12T09:00"),
             ("duration_minutes", JVal.jnum 45)]

/-- The event built from `c7dur45Json`. -/
def c7ev45 : BuiltEvent := ⟨JVal.jstr "Demo", c7start, c7start + 45, 45⟩

/-- C7 witness: the amended theorem applied to a concrete recovered
JSON. -/
theorem C7_witness :
    c7ev45.endMin = c7ev45.startMin + c7ev45.durUsed ∧
    (jlookup c7dur45Json "duration_minutes" = none → c7ev45.durUsed = 60) ∧
    (∀ d, jlookup c7dur45Json "duration_minutes" = some (JVal.jnum d) →
      c7ev45.durUsed = d) :=
  C7_end_start_plus_duration c7dur45Json c7ev45 (by rfl)

/-! ## Claim C8 — event lookup normalization and tie-break -/

/-- C8 counterexample: the query `"cancel Sync"` carries a cancel trigger
word.  The claim says normalization strips known trigger words, so the
normalized query `"Sync"` would be a case-insensitive substring of the
title `"Team Sync"` (second conjunct) and the lookup would match.  The
code only strips parenthesized annotations — `cleanQuery` leaves
`"cancel Sync"` intact — and the lookup finds nothing. -/
theorem C8_counterexample :
    cleanQuery "cancel Sync" = "cancel Sync" ∧
    substrB (lowerS "Sync") (lowerS "Team Sync") = true ∧
    find_event_by_query [⟨"Team Sync", 100, 1⟩] "cancel Sync" =
      Except.error (notFoundMsg "cancel Sync" [⟨"Team Sync", 100, 1⟩]) := by
  exact ⟨rfl, rfl, rfl⟩

/-- The head of a start-ordered match list is earliest-starting among the
matches. -/
theorem matches_head_min (events : List CalEvent) (cq : String)
    (m : CalEvent) (ms : List CalEvent)
    (hsorted : events.Pairwise (fun a b => a.startMin ≤ b.startMin))
    (hm : findMatches events cq = m :: ms) :
    ∀ y ∈ m :: ms, m.startMin ≤ y.startMin := by
  have hp : ((m : CalEvent) :: ms).Pairwise (fun a b => a.startMin ≤ b.startMin) := by
    have hq : (findMatches events cq).Pairwise (fun a b => a.startMin ≤ b.startMin) :=
      hsorted.filter (eventMatches cq)
    rwa [hm] at hq
  intro y hy
  rcases List.mem_cons.mp hy with rfl | hy'
  · exact le_refl _
  · exact (List.pairwise_cons.mp hp).1 y hy'

/-- C8 (amended): the query is normalized by stripping parenthesized
annotations only (no trigger-word stripping); an event matches when the
normalized query is a case-insensitive substring of the title, or the
title is a substring of the normalized query and is longer than one
character; the returned event is always a match, it is the exact
case-insensitive title match when exactly one such exists among the
matches, and otherwise it is the earliest-starting match (the head of the
start-ordered match list). -/
theorem C8_lookup_selection (events : List CalEvent) (query : String)
    (e : CalEvent)
    (hsorted : events.Pairwise (fun a b => a.startMin ≤ b.startMin))
    (hfound : find_event_by_query events query = Except.ok e) :
    e ∈ findMatches events (cleanQuery query) ∧
    (∀ x, (findMatches events (cleanQuery query)).filter
        (isExact (cleanQuery query)) = [x] → e = x) ∧
    (((findMatches events (cleanQuery query)).filter
        (isExact (cleanQuery query))).length ≠ 1 →
      ∀ y ∈ findMatches events (cleanQuery query), e.startMin ≤ y.startMin) := by
  simp only [find_event_by_query] at hfound
  split at hfound
  next xs hm =>
    exact absurd hfound (by simp)
  next xs m ms hm =>
    rw [hm]
    split at hfound
    next ys x hx =>
      injection hfound with hfe
      subst hfe
      refine ⟨?_, ?_, ?_⟩
      · refine List.mem_of_mem_filter (p := isExact (cleanQuery query)) ?_
        rw [hx]
        exact List.mem_cons_self _ _
      · intro x' hx'
        rw [hx] at hx'
        injection hx' with h1 _
      · intro hlen
        rw [hx] at hlen
        simp at hlen
    next ys hnx =>
      injection hfound with hfe
      subst hfe
      refine ⟨List.mem_cons_self _ _, ?_, ?_⟩
      · intro x' hx'
        exact (hnx x' hx').elim
      · intro _
        exact matches_head_min events (cleanQuery query) m ms hsorted hm

/-- The two-event list of the spec's tie-break scenario, start-ordered. -/
def c8Events : List CalEvent := [⟨"Team Sync", 100, 1⟩, ⟨"Sync", 200, 2⟩]

/-- C8 witness: the amended theorem applied to the spec's own tie-break
scenario — titles `"Team Sync"` and `"Sync"`, query `"Sync"`; the sole
exact match `"Sync"` wins even though `"Team Sync"` starts earlier. -/
theorem C8_witness :
    c8Events.Pairwise (fun a b => a.startMin ≤ b.startMin) ∧
    ((⟨"Sync", 200, 2⟩ : CalEvent) ∈ findMatches c8Events (cleanQuery "Sync") ∧
      (∀ x, (findMatches c8Events (cleanQuery "Sync")).filter
          (isExact (cleanQuery "Sync")) = [x] → (⟨"Sync", 200, 2⟩ : CalEvent) = x) ∧
      (((findMatches c8Events (cleanQuery "Sync")).filter
          (isExact (cleanQuery "Sync"))).length ≠ 1 →
        ∀ y ∈ findMatches c8Events (cleanQuery "Sync"),
          (⟨"Sync", 200, 2⟩ : CalEvent).startMin ≤ y.startMin)) :=
  ⟨by decide, C8_lookup_selection c8Events "Sync" ⟨"Sync", 200, 2⟩ (by decide) (by rfl)⟩

/-! ## Claim C9 — not-found reply and absence of mutation -/

/-- C9: when no upcoming event matches the (normalized) query, both
`delete_event` and the update lookup return the not-found reply — which
names the normalized search term and carries at most five upcoming titles
as suggestions — and neither deletes nor patches anything. -/
theorem C9_not_found_no_mutation (delOk : Bool) (events : List CalEvent)
    (query : String)
    (hnone : findMatches events (cleanQuery query) = []) :
    delete_event delOk events query = (notFoundMsg (cleanQuery query) events, none) ∧
    update_event_lookup events query = (notFoundMsg (cleanQuery query) events, none) ∧
    substrB (cleanQuery query) (notFoundMsg (cleanQuery query) events) = true ∧
    ((events.take 5).map (fun e => e.summary)).length ≤ 5 := by
  have hf : find_event_by_query events query =
      Except.error (notFoundMsg (cleanQuery query) events) := by
    simp only [find_event_by_query]
    rw [hnone]
  refine ⟨?_, ?_, ?_, ?_⟩
  · simp [delete_event, hf]
  · simp [update_event_lookup, hf]
  · exact substrB_of_data _ _ ("❌ 找不到包含 \x27").data
      (("\x27 的近期行程。\n建議：\n" ++
        String.join ((events.take 5).map (fun e => "- " ++ e.summary ++ "\n"))).data)
      (by simp [notFoundMsg, String.data_append])
  · simp only [List.length_map, List.length_take]
    omega

/-- C9 witness: the theorem applied to a query matching nothing. -/
theorem C9_witness :
    findMatches [(⟨"Gym", 50, 9⟩ : CalEvent)] (cleanQuery "牙醫") = [] ∧
    (delete_event true [(⟨"Gym", 50, 9⟩ : CalEvent)] "牙醫" =
        (notFoundMsg (cleanQuery "牙醫") [⟨"Gym", 50, 9⟩], none) ∧
      update_event_lookup [(⟨"Gym", 50, 9⟩ : CalEvent)] "牙醫" =
        (notFoundMsg (cleanQuery "牙醫") [⟨"Gym", 50, 9⟩], none) ∧
      substrB (cleanQuery "牙醫")
        (notFoundMsg (cleanQuery "牙醫") [⟨"Gym", 50, 9⟩]) = true ∧
      (([(⟨"Gym", 50, 9⟩ : CalEvent)].take 5).map (fun e => e.summary)).length ≤ 5) :=
  ⟨by rfl, C9_not_found_no_mutation true [⟨"Gym", 50, 9⟩] "牙醫" (by rfl)⟩

/-! ## Claim C10 — single-character titles and reverse containment -/

/-- C10: an event whose (lower-cased) title has length at most one is
never matched through the reverse-containment branch: if it is in the
match list at all, the forward branch holds — the cleaned query is a
case-insensitive substring of its title. -/
theorem C10_single_char_title_forward_only (events : List CalEvent)
    (query : String) (e : CalEvent)
    (hlen : (lowerS e.summary).data.length ≤ 1)
    (hmem : e ∈ findMatches events (cleanQuery query)) :
    substrB (lowerS (cleanQuery query)) (lowerS e.summary) = true := by
  unfold findMatches at hmem
  rw [List.mem_filter] at hmem
  have hb := hmem.2
  unfold eventMatches at hb
  simp only [Bool.or_eq_true, Bool.and_eq_true, decide_eq_true_eq] at hb
  rcases hb with hb | ⟨_, hgt⟩
  · exact hb
  · omega

/-- C10 witness: the theorem applied to a single-character title matched
through the forward branch. -/
theorem C10_witness :
    (lowerS "X").data.length ≤ 1 ∧
    (⟨"X", 5, 3⟩ : CalEvent) ∈ findMatches [⟨"X", 5, 3⟩] (cleanQuery "X") ∧
    substrB (lowerS (cleanQuery "X")) (lowerS "X") = true :=
  ⟨by decide, by decide,
   C10_single_char_title_forward_only [⟨"X", 5, 3⟩] "X" ⟨"X", 5, 3⟩
     (by decide) (by decide)⟩

end Lumio
